import Mathlib

/-!
Verification of the ICMP Echo packet codec and ping session of `Pinger.py`.

Shallow embedding conventions:
- Python `bytes` values become `List Nat`, each element intended in `[0, 255]`.
- `struct.pack`/`struct.unpack` failures (`struct.error`) and enum lookup
  failures (`ValueError`) are modelled by `Option`/`Except`: `none`/`.error`
  means the Python code raises at that point.
- Python `~s & 0xFFFF` on a nonnegative `s` equals `65535 - s % 65536`; the
  shifts `s >> 16` and masks `s & 0xFFFF` become `s / 65536` and `s % 65536`.
- `float` durations (`time.perf_counter` differences) become `Rat`; the raw
  socket interaction of `sendto` is modelled by an oracle event `NetEvent`
  saying what the network did during the call.
-/

/-- Embedding of `class ICMP_Echo_Type(Enum)`: `ECHO = 8`, `REPLY = 0`. -/
inductive ICMP_Echo_Type where
  | ECHO
  | REPLY
deriving DecidableEq, Repr

/-- Numeric value of the enum member (`.value` in Python). -/
def ICMP_Echo_Type.value : ICMP_Echo_Type → Nat
  | .ECHO => 8
  | .REPLY => 0

/-- Embedding of the enum lookup `ICMP_Echo_Type(v)`: `none` models the
`ValueError` raised on a value other than 8 or 0. -/
def ICMP_Echo_Type.fromValue (v : Nat) : Option ICMP_Echo_Type :=
  if v = 8 then some .ECHO
  else if v = 0 then some .REPLY
  else none

/-- Embedding of the `ICMP_Echo` instance attributes set by `__init__`:
`icmp_type`, `code`, `checksum`, `identifier`, `sequence`, `data`,
`response_time` (the `-1` sentinel until a round trip completes). -/
structure ICMP_Echo where
  icmp_type : ICMP_Echo_Type
  code : Nat
  checksum : Nat
  identifier : Nat
  sequence : Nat
  data : List Nat
  response_time : Rat
deriving DecidableEq, Repr

/-- Embedding of `struct.pack(f"!BBHHH{len(data)}s", tv, c, ck, i, s, data)`.
`B` fields must fit in 8 bits and `H` fields in 16 bits, else `struct.error`
(modelled as `none`); multi-byte fields are big-endian (`!`), and `{n}s` with
`n = len(data)` emits `data` verbatim. -/
def pack_BBHHHs (tv c ck i s : Nat) (data : List Nat) : Option (List Nat) :=
  if tv ≤ 255 ∧ c ≤ 255 ∧ ck ≤ 65535 ∧ i ≤ 65535 ∧ s ≤ 65535 then
    some ([tv, c, ck / 256, ck % 256, i / 256, i % 256, s / 256, s % 256] ++ data)
  else
    none

/-- Embedding of the padding step of `calculate_checksum`: if the byte count
is odd, append one zero byte. -/
def padEven (l : List Nat) : List Nat :=
  if l.length % 2 = 1 then l ++ [0] else l

/-- Embedding of the summation loop of `calculate_checksum`:
`for i in range(0, len(payload), 2): s += (payload[i] << 8) + payload[i+1]`,
summing consecutive byte pairs as big-endian 16-bit words. -/
def wordSum : List Nat → Nat
  | a :: b :: rest => (a * 256 + b) + wordSum rest
  | _ => 0

/-- Embedding of the carry folding and complement of `calculate_checksum`,
applied to the packed zero-checksum payload: pad to even length, sum 16-bit
big-endian words, fold the carry twice (`s = (s >> 16) + (s & 0xFFFF)` then
`s += s >> 16`), and return `~s & 0xFFFF` (which for `s ≥ 0` is
`65535 - s % 65536`). -/
def checksumOf (p : List Nat) : Nat :=
  let payload := padEven p
  let s0 := wordSum payload
  let s1 := s0 / 65536 + s0 % 65536
  let s2 := s1 + s1 / 65536
  65535 - s2 % 65536

/-- Embedding of `ICMP_Echo.calculate_checksum`: pack the message with 0 in
place of the checksum and run the summation/folding pipeline on the result.
`none` models the `struct.error` raised by the pack when a field is out of
range. -/
def calculate_checksum (m : ICMP_Echo) : Option Nat :=
  (pack_BBHHHs m.icmp_type.value m.code 0 m.identifier m.sequence m.data).map checksumOf

/-- Embedding of `ICMP_Echo.check_checksum`:
`self.checksum == self.calculate_checksum()`. -/
def ICMP_Echo.check_checksum (m : ICMP_Echo) : Option Bool :=
  (calculate_checksum m).map fun c => m.checksum == c

/-- Embedding of `ICMP_Echo.set_checksum(override)`: store `override` when
given, otherwise store the freshly computed checksum. Returns the updated
message (state passing for the Python attribute mutation). -/
def ICMP_Echo.set_checksum (m : ICMP_Echo) (override : Option Nat) : Option ICMP_Echo :=
  match override with
  | some v => some { m with checksum := v }
  | none => (calculate_checksum m).map fun c => { m with checksum := c }

/-- Embedding of `ICMP_Echo.__init__(icmp_type, code, identifier, sequence,
data)`: all fields stored, `checksum` starts at 0 and `response_time` at the
`-1` sentinel, then `set_checksum()` runs. `none` models the `struct.error`
propagating out of `set_checksum` when a field does not fit its format. -/
def ICMP_Echo.init (icmp_type : ICMP_Echo_Type) (code identifier sequence : Nat)
    (data : List Nat) : Option ICMP_Echo :=
  let m0 : ICMP_Echo :=
    { icmp_type := icmp_type, code := code, checksum := 0, identifier := identifier,
      sequence := sequence, data := data, response_time := -1 }
  m0.set_checksum none

/-- Embedding of `ICMP_Echo.__bytes__`: run `set_checksum()` (mutating the
message), then pack type, code, checksum, identifier, sequence and data.
Returns the produced bytes together with the updated message. -/
def ICMP_Echo.toBytes (m : ICMP_Echo) : Option (List Nat × ICMP_Echo) :=
  (m.set_checksum none).bind fun m2 =>
    (pack_BBHHHs m2.icmp_type.value m2.code m2.checksum m2.identifier m2.sequence m2.data).map
      fun bs => (bs, m2)

/-- Embedding of `ICMP_Echo.from_bytes(packet)`: `struct.unpack("!BBHHH",
packet[:8])` fails on fewer than 8 bytes; the enum lookup fails on an unknown
type byte; the unpacked checksum word (bytes 2-3) is bound but discarded, and
the message is rebuilt through `__init__` from the remaining fields. -/
def ICMP_Echo.from_bytes (packet : List Nat) : Option ICMP_Echo :=
  match packet with
  | b0 :: b1 :: _b2 :: _b3 :: b4 :: b5 :: b6 :: b7 :: rest =>
    match ICMP_Echo_Type.fromValue b0 with
    | none => none
    | some t => ICMP_Echo.init t b1 (b4 * 256 + b5) (b6 * 256 + b7) rest
  | _ => none

/-- Oracle for the network interaction performed by one `sendto` call: which
exception (if any) the socket layer raises, or the raw bytes received and the
elapsed wall time `t2 - t1` measured around send/recv. -/
inductive NetEvent where
  | gaierror
  | oserror
  | timeout
  | received (buf : List Nat) (elapsed : Rat)

/-- Embedding of `ICMP_Echo.sendto(dest)` over the `NetEvent` oracle:
`socket.gaierror` or `OSError` on connect return `None`; otherwise the
message is serialized (`bytes(self)`, which may raise `struct.error`); a recv
timeout returns `None`; on receipt the first 20 bytes (IP header) are
snipped, `from_bytes` parses the rest (its exceptions propagate), and the
reply's `response_time` is set to `t2 - t1`. `.error` models an exception
escaping `sendto`; `.ok none` models `return None`. -/
def ICMP_Echo.sendto (m : ICMP_Echo) (ev : NetEvent) : Except String (Option ICMP_Echo) :=
  match ev with
  | .gaierror => .ok none
  | .oserror => .ok none
  | .timeout =>
    match m.toBytes with
    | none => .error "struct.error"
    | some _ => .ok none
  | .received buf elapsed =>
    match m.toBytes with
    | none => .error "struct.error"
    | some _ =>
      match ICMP_Echo.from_bytes (buf.drop 20) with
      | none => .error "MalformedPacketError"
      | some resp => .ok (some { resp with response_time := elapsed })

/-- Default payload of `ICMP_Echo.__init__`:
`b"abcdefghijklmnopqrstuvwabcdefghi"` as byte values. -/
def defaultData : List Nat :=
  [97, 98, 99, 100, 101, 102, 103, 104, 105, 106, 107, 108, 109, 110, 111, 112,
   113, 114, 115, 116, 117, 118, 119, 97, 98, 99, 100, 101, 102, 103, 104, 105]

/-- Embedding of the top-level `ping(target)`: build a default `ICMP_Echo()`
request, `sendto` it, and return the reply's `response_time` on success or
`-1` when `sendto` returned `None`. -/
def ping (ev : NetEvent) : Except String Rat :=
  match ICMP_Echo.init .ECHO 0 1 1 defaultData with
  | none => .error "struct.error"
  | some echo =>
    match echo.sendto ev with
    | .error e => .error e
    | .ok none => .ok (-1)
    | .ok (some resp) => .ok resp.response_time

/-- Fully folded end-around carry of the specification: add the upper 16 bits
of the running sum into the lower 16 bits, repeated until no carry remains. -/
def foldCarry (s : Nat) : Nat :=
  if s < 65536 then s else foldCarry (s / 65536 + s % 65536)
termination_by s
decreasing_by
  have h1 : 1 ≤ s / 65536 := Nat.one_le_div_iff (by norm_num) |>.mpr (by omega)
  omega

/-- Modelled from the spec (for comparison with `calculate_checksum`): the
RFC 1071 algorithm as the spec states it — serialize with checksum 0, pad an
odd byte count with one zero byte, sum the 16-bit big-endian words, fold
carries repeatedly until none remains, and take the one's complement of the
final 16-bit sum. -/
def rfc1071_checksum (m : ICMP_Echo) : Option Nat :=
  (pack_BBHHHs m.icmp_type.value m.code 0 m.identifier m.sequence m.data).map fun p =>
    65535 - foldCarry (wordSum (padEven p))

/-- Zero-checksum payload of a message, as produced inside
`calculate_checksum` by the pack call with 0 in the checksum slot. -/
def zeroCkPayload (m : ICMP_Echo) : List Nat :=
  [m.icmp_type.value, m.code, 0, 0, m.identifier / 256, m.identifier % 256,
   m.sequence / 256, m.sequence % 256] ++ m.data

/-- Concrete message exhibiting the divergence between the two-pass folding of
`calculate_checksum` and full end-around-carry folding: 65537 data words of
0xFFFF followed by one word 0xF800 drive the folded sum to 0x1FFFF, whose
final carry the second fixed pass fails to absorb. -/
def cexData : List Nat := List.replicate 131074 255 ++ [248, 0]

def cexMsg : ICMP_Echo :=
  { icmp_type := .ECHO, code := 0, checksum := 0, identifier := 0, sequence := 0,
    data := cexData, response_time := -1 }

/-- Small concrete messages and buffers used to instantiate the theorems. -/
def msgSmall : ICMP_Echo :=
  { icmp_type := .ECHO, code := 0, checksum := 0, identifier := 1, sequence := 2,
    data := [1, 2, 3], response_time := -1 }

def msgOdd : ICMP_Echo :=
  { icmp_type := .ECHO, code := 0, checksum := 0, identifier := 1, sequence := 1,
    data := [97], response_time := -1 }

def msgC5 : ICMP_Echo :=
  { icmp_type := .REPLY, code := 0, checksum := 65527, identifier := 4, sequence := 4,
    data := [], response_time := -1 }

def msgC6 : ICMP_Echo :=
  { icmp_type := .ECHO, code := 0, checksum := 63476, identifier := 5, sequence := 6,
    data := [], response_time := -1 }

def bytesC6 : List Nat := [8, 0, 247, 244, 0, 5, 0, 6]

def msgC7 : ICMP_Echo :=
  { icmp_type := .ECHO, code := 0, checksum := 0, identifier := 7, sequence := 8,
    data := [], response_time := -1 }

def msgC7r : ICMP_Echo :=
  { icmp_type := .ECHO, code := 0, checksum := 63472, identifier := 7, sequence := 8,
    data := [], response_time := -1 }

def bytesC7 : List Nat := [8, 0, 247, 240, 0, 7, 0, 8]

def replyMsg : ICMP_Echo :=
  { icmp_type := .REPLY, code := 0, checksum := 65533, identifier := 1, sequence := 1,
    data := [], response_time := -1 }

def msgC10 : ICMP_Echo :=
  { icmp_type := .REPLY, code := 0, checksum := 65530, identifier := 2, sequence := 3,
    data := [], response_time := -1 }

/-- Default request built by `ping`, with its checksum value evaluated. -/
def pingMsg : ICMP_Echo :=
  { icmp_type := .ECHO, code := 0, checksum := 19802, identifier := 1, sequence := 1,
    data := defaultData, response_time := -1 }

def pingBytes : List Nat := [8, 0, 77, 90, 0, 1, 0, 1] ++ defaultData

theorem tvalue_le (t : ICMP_Echo_Type) : t.value ≤ 255 := by
  cases t <;> simp [ICMP_Echo_Type.value]

theorem fromValue_value (t : ICMP_Echo_Type) : ICMP_Echo_Type.fromValue t.value = some t := by
  cases t <;> rfl

theorem checksumOf_le (p : List Nat) : checksumOf p ≤ 65535 :=
  Nat.sub_le _ _

theorem calculate_checksum_eq (m : ICMP_Echo) :
    calculate_checksum m =
      if m.code ≤ 255 ∧ m.identifier ≤ 65535 ∧ m.sequence ≤ 65535 then
        some (checksumOf (zeroCkPayload m))
      else none := by
  unfold calculate_checksum pack_BBHHHs zeroCkPayload
  have htv : m.icmp_type.value ≤ 255 := tvalue_le m.icmp_type
  by_cases h : m.code ≤ 255 ∧ m.identifier ≤ 65535 ∧ m.sequence ≤ 65535
  · rw [if_pos ⟨htv, h.1, by norm_num, h.2.1, h.2.2⟩, if_pos h]
    simp
  · rw [if_neg (fun hc => h ⟨hc.2.1, hc.2.2.2.1, hc.2.2.2.2⟩), if_neg h]
    rfl

theorem init_eq (t : ICMP_Echo_Type) (c i s : Nat) (d : List Nat) :
    ICMP_Echo.init t c i s d =
      if c ≤ 255 ∧ i ≤ 65535 ∧ s ≤ 65535 then
        some { icmp_type := t, code := c,
               checksum := checksumOf ([t.value, c, 0, 0, i / 256, i % 256,
                 s / 256, s % 256] ++ d),
               identifier := i, sequence := s, data := d, response_time := -1 }
      else none := by
  have h1 : ICMP_Echo.init t c i s d =
      (calculate_checksum
          { icmp_type := t, code := c, checksum := 0, identifier := i, sequence := s,
            data := d, response_time := -1 }).map
        (fun ck =>
          { icmp_type := t, code := c, checksum := ck, identifier := i, sequence := s,
            data := d, response_time := -1 }) := rfl
  rw [h1, calculate_checksum_eq]
  split <;> simp [zeroCkPayload]

theorem toBytes_eq (m : ICMP_Echo) :
    m.toBytes =
      if m.code ≤ 255 ∧ m.identifier ≤ 65535 ∧ m.sequence ≤ 65535 then
        some ([m.icmp_type.value, m.code,
               checksumOf (zeroCkPayload m) / 256, checksumOf (zeroCkPayload m) % 256,
               m.identifier / 256, m.identifier % 256,
               m.sequence / 256, m.sequence % 256] ++ m.data,
              { m with checksum := checksumOf (zeroCkPayload m) })
      else none := by
  unfold ICMP_Echo.toBytes ICMP_Echo.set_checksum
  rw [calculate_checksum_eq]
  by_cases h : m.code ≤ 255 ∧ m.identifier ≤ 65535 ∧ m.sequence ≤ 65535
  · obtain ⟨h1, h2, h3⟩ := h
    have hck := checksumOf_le (zeroCkPayload m)
    have htv := tvalue_le m.icmp_type
    simp [pack_BBHHHs, htv, h1, h2, h3, hck]
  · simp [h]

theorem init_checksum_ok (t : ICMP_Echo_Type) (c i s : Nat) (d : List Nat) (m : ICMP_Echo)
    (h : ICMP_Echo.init t c i s d = some m) : calculate_checksum m = some m.checksum := by
  rw [init_eq] at h
  split at h
  next hcond =>
    cases h
    rw [calculate_checksum_eq]
    rw [if_pos (by simpa using hcond)]
    simp [zeroCkPayload]
  next => cases h

theorem wordSum_le : ∀ l : List Nat, (∀ b ∈ l, b ≤ 255) →
    wordSum l ≤ (l.length + 1) / 2 * 65535
  | [], _ => Nat.zero_le _
  | [_], _ => Nat.zero_le _
  | a :: b :: rest, h => by
    have ha : a ≤ 255 := h a (by simp)
    have hb : b ≤ 255 := h b (by simp)
    have ih := wordSum_le rest (fun x hx => h x (by simp [hx]))
    have key : wordSum (a :: b :: rest) = (a * 256 + b) + wordSum rest := rfl
    rw [key]
    simp only [List.length_cons]
    omega

theorem padEven_bytes (l : List Nat) (h : ∀ b ∈ l, b ≤ 255) :
    ∀ b ∈ padEven l, b ≤ 255 := by
  intro b hb
  unfold padEven at hb
  split at hb
  · rcases List.mem_append.mp hb with h1 | h1
    · exact h b h1
    · simp only [List.mem_singleton] at h1
      omega
  · exact h b hb

theorem padEven_length (l : List Nat) (h : l.length ≤ 131072) :
    (padEven l).length ≤ 131072 := by
  unfold padEven
  split
  next hodd =>
    simp only [List.length_append, List.length_singleton]
    omega
  next => exact h

theorem foldCarry_small (s : Nat) (h : s < 65536) : foldCarry s = s := by
  rw [foldCarry.eq_def, if_pos h]

theorem foldCarry_step (s : Nat) (h : ¬ s < 65536) :
    foldCarry s = foldCarry (s / 65536 + s % 65536) := by
  rw [foldCarry.eq_def, if_neg h]

theorem twoFoldEq (s0 : Nat) (h : s0 ≤ 65536 * 65535) :
    (s0 / 65536 + s0 % 65536 + (s0 / 65536 + s0 % 65536) / 65536) % 65536 = foldCarry s0 := by
  obtain ⟨q, r, hqr, hr, hq⟩ : ∃ q r, s0 = 65536 * q + r ∧ r < 65536 ∧ q ≤ 65535 :=
    ⟨s0 / 65536, s0 % 65536, by omega, by omega, by omega⟩
  have e1 : s0 / 65536 = q := by omega
  have e2 : s0 % 65536 = r := by omega
  rw [e1, e2]
  by_cases h1 : s0 < 65536
  · rw [foldCarry_small s0 h1]
    omega
  · rw [foldCarry_step s0 h1, e1, e2]
    by_cases h2 : q + r < 65536
    · rw [foldCarry_small _ h2]
      clear e1 e2 hqr h h1
      omega
    · rw [foldCarry_step _ h2]
      have e3 : (q + r) / 65536 = 1 := by omega
      have e4 : (q + r) % 65536 = q + r - 65536 := by omega
      rw [e3, e4, foldCarry_small _ (by omega)]
      omega

theorem checksumOf_eq_foldCarry (p : List Nat) (hb : ∀ b ∈ p, b ≤ 255)
    (hl : p.length ≤ 131072) :
    checksumOf p = 65535 - foldCarry (wordSum (padEven p)) := by
  have hb' := padEven_bytes p hb
  have hl' := padEven_length p hl
  have hs : wordSum (padEven p) ≤ 65536 * 65535 := by
    calc wordSum (padEven p) ≤ ((padEven p).length + 1) / 2 * 65535 := wordSum_le _ hb'
    _ ≤ 65536 * 65535 := by
        have : ((padEven p).length + 1) / 2 ≤ 65536 := by omega
        exact Nat.mul_le_mul_right 65535 this
  have key : checksumOf p =
      65535 - ((wordSum (padEven p) / 65536 + wordSum (padEven p) % 65536 +
        (wordSum (padEven p) / 65536 + wordSum (padEven p) % 65536) / 65536) % 65536) := rfl
  rw [key, twoFoldEq _ hs]

theorem wordSum_replicate255 : ∀ (k : Nat) (rest : List Nat),
    wordSum (List.replicate (2 * k) 255 ++ rest) = k * 65535 + wordSum rest
  | 0, rest => by simp
  | k + 1, rest => by
    have h2 : 2 * (k + 1) = (2 * k) + 1 + 1 := by ring
    rw [h2, List.replicate_succ, List.replicate_succ, List.cons_append, List.cons_append]
    have key : wordSum (255 :: 255 :: (List.replicate (2 * k) 255 ++ rest)) =
        (255 * 256 + 255) + wordSum (List.replicate (2 * k) 255 ++ rest) := rfl
    rw [key, wordSum_replicate255 k rest]
    ring

theorem rfc1071_checksum_eq (m : ICMP_Echo) :
    rfc1071_checksum m =
      if m.code ≤ 255 ∧ m.identifier ≤ 65535 ∧ m.sequence ≤ 65535 then
        some (65535 - foldCarry (wordSum (padEven (zeroCkPayload m))))
      else none := by
  unfold rfc1071_checksum pack_BBHHHs zeroCkPayload
  have htv : m.icmp_type.value ≤ 255 := tvalue_le m.icmp_type
  by_cases h : m.code ≤ 255 ∧ m.identifier ≤ 65535 ∧ m.sequence ≤ 65535
  · rw [if_pos ⟨htv, h.1, by norm_num, h.2.1, h.2.2⟩, if_pos h]
    simp
  · rw [if_neg (fun hc => h ⟨hc.2.1, hc.2.2.2.1, hc.2.2.2.2⟩), if_neg h]
    rfl

theorem calcsum_set (m : ICMP_Echo) (ck : Nat) :
    calculate_checksum { m with checksum := ck } = calculate_checksum m := rfl

theorem zeroCkPayload_bytes (m : ICMP_Echo) (hc : m.code ≤ 255) (hi : m.identifier ≤ 65535)
    (hs : m.sequence ≤ 65535) (hd : ∀ b ∈ m.data, b ≤ 255) :
    ∀ b ∈ zeroCkPayload m, b ≤ 255 := by
  intro b hbm
  unfold zeroCkPayload at hbm
  rcases List.mem_append.mp hbm with hh | hd2
  · fin_cases hh
    · exact tvalue_le _
    · exact hc
    · omega
    · omega
    · omega
    · omega
    · omega
    · omega
  · exact hd b hd2

theorem zeroCkPayload_length (m : ICMP_Echo) :
    (zeroCkPayload m).length = 8 + m.data.length := by
  simp [zeroCkPayload]
  omega

theorem from_bytes_some_init (p : List Nat) (m : ICMP_Echo)
    (h : ICMP_Echo.from_bytes p = some m) :
    ∃ t c i s d, ICMP_Echo.init t c i s d = some m := by
  rcases p with _ | ⟨b0, _ | ⟨b1, _ | ⟨b2, _ | ⟨b3, _ | ⟨b4, _ | ⟨b5, _ | ⟨b6, _ | ⟨b7, rest⟩⟩⟩⟩⟩⟩⟩⟩
  · simp [ICMP_Echo.from_bytes] at h
  · simp [ICMP_Echo.from_bytes] at h
  · simp [ICMP_Echo.from_bytes] at h
  · simp [ICMP_Echo.from_bytes] at h
  · simp [ICMP_Echo.from_bytes] at h
  · simp [ICMP_Echo.from_bytes] at h
  · simp [ICMP_Echo.from_bytes] at h
  · simp [ICMP_Echo.from_bytes] at h
  · have h2 : (match ICMP_Echo_Type.fromValue b0 with
        | none => none
        | some t => ICMP_Echo.init t b1 (b4 * 256 + b5) (b6 * 256 + b7) rest) = some m := h
    cases hf : ICMP_Echo_Type.fromValue b0 with
    | none =>
      rw [hf] at h2
      simp at h2
    | some t =>
      rw [hf] at h2
      exact ⟨t, _, _, _, _, h2⟩

/-- C9: construction accepts identifier and sequence only when they fit in 16
bits — for any identifier or sequence above 65535 the pack inside
`set_checksum` raises `struct.error`, so `__init__` never completes and no
message with such fields is produced (modelled as `init` returning `none`). -/
theorem C9_construction_rejects_oversized (t : ICMP_Echo_Type) (c i s : Nat) (d : List Nat)
    (h : 65535 < i ∨ 65535 < s) : ICMP_Echo.init t c i s d = none := by
  rw [init_eq, if_neg (by omega)]

/-- C9 witness: construction with identifier 70000 is rejected. -/
theorem C9_witness : (65535 < 70000 ∨ 65535 < 1) ∧ ICMP_Echo.init .ECHO 0 70000 1 [] = none :=
  ⟨Or.inl (by norm_num), C9_construction_rejects_oversized .ECHO 0 70000 1 [] (Or.inl (by norm_num))⟩

/-- C2: `__bytes__` produces exactly 1 byte type, 1 byte code, 2 bytes
checksum (big-endian), 2 bytes identifier, 2 bytes sequence, then the payload
verbatim; total length is 8 plus the payload length, and no pad byte ever
appears in the output (including odd payload lengths, since the pad exists
only inside `calculate_checksum`). -/
theorem C2_serialize_layout (m : ICMP_Echo) (hc : m.code ≤ 255) (hi : m.identifier ≤ 65535)
    (hs : m.sequence ≤ 65535) :
    ∃ ck bs, calculate_checksum m = some ck ∧
      bs = [m.icmp_type.value, m.code, ck / 256, ck % 256, m.identifier / 256,
        m.identifier % 256, m.sequence / 256, m.sequence % 256] ++ m.data ∧
      m.toBytes = some (bs, { m with checksum := ck }) ∧
      bs.length = 8 + m.data.length := by
  refine ⟨checksumOf (zeroCkPayload m), _, ?_, rfl, ?_, ?_⟩
  · rw [calculate_checksum_eq, if_pos ⟨hc, hi, hs⟩]
  · rw [toBytes_eq, if_pos ⟨hc, hi, hs⟩]
  · simp only [List.length_append, List.length_cons, List.length_nil]

/-- C2 witness: the layout theorem applied to a message with an odd (1-byte)
payload. -/
theorem C2_witness :
    msgOdd.code ≤ 255 ∧ msgOdd.identifier ≤ 65535 ∧ msgOdd.sequence ≤ 65535 ∧
    (∃ ck bs, calculate_checksum msgOdd = some ck ∧
      bs = [msgOdd.icmp_type.value, msgOdd.code, ck / 256, ck % 256, msgOdd.identifier / 256,
        msgOdd.identifier % 256, msgOdd.sequence / 256, msgOdd.sequence % 256] ++ msgOdd.data ∧
      msgOdd.toBytes = some (bs, { msgOdd with checksum := ck }) ∧
      bs.length = 8 + msgOdd.data.length) :=
  ⟨by decide, by decide, by decide, C2_serialize_layout msgOdd (by decide) (by decide) (by decide)⟩

/-- C5 (counterexample): the claim says the reconstructed message stores the
checksum bytes carried verbatim in the buffer (offsets 2-3 big-endian, here
222*256+173), but `from_bytes` discards that word and `__init__` recomputes
63487 from the other fields. -/
theorem C5_counterexample :
    ICMP_Echo.from_bytes [8, 0, 222, 173, 0, 0, 0, 0] =
      some { icmp_type := .ECHO, code := 0, checksum := 63487, identifier := 0,
             sequence := 0, data := [], response_time := -1 } ∧
    (222 * 256 + 173 : Nat) ≠ 63487 := by
  constructor
  · decide
  · decide

/-- C5 (amended): when a message is reconstructed via `from_bytes`, its
stored checksum field is recomputed from the other fields (it always equals
`calculate_checksum` of the message); the checksum bytes in the buffer are
discarded rather than preserved verbatim. -/
theorem C5_checksum_recomputed (p : List Nat) (m : ICMP_Echo)
    (h : ICMP_Echo.from_bytes p = some m) : calculate_checksum m = some m.checksum := by
  obtain ⟨t, c, i, s, d, hinit⟩ := from_bytes_some_init p m h
  exact init_checksum_ok t c i s d m hinit

/-- C5 witness: the amended theorem applied to a concrete reply buffer whose
carried checksum word (9*256+9) differs from the recomputed one. -/
theorem C5_witness :
    ICMP_Echo.from_bytes [0, 0, 9, 9, 0, 4, 0, 4] = some msgC5 ∧
    calculate_checksum msgC5 = some msgC5.checksum :=
  ⟨by decide, C5_checksum_recomputed [0, 0, 9, 9, 0, 4, 0, 4] msgC5 (by decide)⟩

/-- C6: for arbitrary valid field values, `check_checksum` is true
immediately after `__init__` completes, and immediately after the
`set_checksum` call inside `__bytes__` the stored checksum equals
`calculate_checksum` of the message being serialized — it is never stale at
transmission time. -/
theorem C6_checksum_valid_after_init :
    (∀ t c i s d m, ICMP_Echo.init t c i s d = some m → m.check_checksum = some true)
    ∧ ∀ m bs m2, ICMP_Echo.toBytes m = some (bs, m2) →
        calculate_checksum m2 = some m2.checksum := by
  constructor
  · intro t c i s d m h
    have h2 := init_checksum_ok t c i s d m h
    unfold ICMP_Echo.check_checksum
    rw [h2]
    simp
  · intro m bs m2 h
    rw [toBytes_eq] at h
    split at h
    next hcond =>
      simp only [Option.some_inj, Prod.mk.injEq] at h
      obtain ⟨-, hm2⟩ := h
      subst hm2
      rw [calcsum_set, calculate_checksum_eq, if_pos hcond]
    next => simp at h

/-- C6 witness: both parts of the invariant at a concrete construction. -/
theorem C6_witness :
    ICMP_Echo.init .ECHO 0 5 6 [] = some msgC6 ∧ msgC6.check_checksum = some true ∧
    ICMP_Echo.toBytes msgC6 = some (bytesC6, msgC6) ∧
    calculate_checksum msgC6 = some msgC6.checksum :=
  ⟨by decide, C6_checksum_valid_after_init.1 .ECHO 0 5 6 [] msgC6 (by decide), by decide,
    C6_checksum_valid_after_init.2 msgC6 bytesC6 msgC6 (by decide)⟩

/-- C7: `__bytes__` recomputes and overwrites only the checksum field of the
message as a side effect; type, code, identifier, sequence, payload and
response time are left unchanged. -/
theorem C7_serialize_frame (m : ICMP_Echo) (bs : List Nat) (m2 : ICMP_Echo)
    (h : ICMP_Echo.toBytes m = some (bs, m2)) :
    m2.icmp_type = m.icmp_type ∧ m2.code = m.code ∧ m2.identifier = m.identifier ∧
    m2.sequence = m.sequence ∧ m2.data = m.data ∧ m2.response_time = m.response_time ∧
    calculate_checksum m = some m2.checksum := by
  rw [toBytes_eq] at h
  split at h
  next hcond =>
    simp only [Option.some_inj, Prod.mk.injEq] at h
    obtain ⟨-, hm2⟩ := h
    subst hm2
    refine ⟨rfl, rfl, rfl, rfl, rfl, rfl, ?_⟩
    rw [calculate_checksum_eq, if_pos hcond]
  next => simp at h

/-- C7 witness: serializing a message with a stale checksum 0 rewrites only
the checksum. -/
theorem C7_witness :
    ICMP_Echo.toBytes msgC7 = some (bytesC7, msgC7r) ∧
    (msgC7r.icmp_type = msgC7.icmp_type ∧ msgC7r.code = msgC7.code ∧
     msgC7r.identifier = msgC7.identifier ∧ msgC7r.sequence = msgC7.sequence ∧
     msgC7r.data = msgC7.data ∧ msgC7r.response_time = msgC7.response_time ∧
     calculate_checksum msgC7 = some msgC7r.checksum) :=
  ⟨by decide, C7_serialize_frame msgC7 bytesC7 msgC7r (by decide)⟩

/-- C10 (implicit): every buffer accepted by `from_bytes` yields a message on
which `check_checksum` returns true, regardless of the checksum bytes in the
buffer, because reconstruction recomputes the checksum from the other
fields — a corrupted checksum in a received reply is undetectable. -/
theorem C10_decoded_always_passes_check (p : List Nat) (m : ICMP_Echo)
    (h : ICMP_Echo.from_bytes p = some m) : m.check_checksum = some true := by
  obtain ⟨t, c, i, s, d, hinit⟩ := from_bytes_some_init p m h
  have h2 := init_checksum_ok t c i s d m hinit
  unfold ICMP_Echo.check_checksum
  rw [h2]
  simp

/-- C10 witness: a buffer carrying the (wrong) checksum word 0xFFFF still
decodes to a message that passes `check_checksum`. -/
theorem C10_witness :
    ICMP_Echo.from_bytes [0, 0, 255, 255, 0, 2, 0, 3] = some msgC10 ∧
    msgC10.check_checksum = some true :=
  ⟨by decide, C10_decoded_always_passes_check [0, 0, 255, 255, 0, 2, 0, 3] msgC10 (by decide)⟩

/-- C3: round trip — for every valid type (ECHO = 8 or REPLY = 0), code in
[0, 255], identifier and sequence in [0, 65535] and payload of any length,
`from_bytes` applied to `__bytes__` of the constructed message reproduces
identical type, code, identifier, sequence and payload. -/
theorem C3_round_trip (t : ICMP_Echo_Type) (c i s : Nat) (d : List Nat)
    (hc : c ≤ 255) (hi : i ≤ 65535) (hs : s ≤ 65535) :
    ∃ m bs m2 m3, ICMP_Echo.init t c i s d = some m ∧ m.toBytes = some (bs, m2) ∧
      ICMP_Echo.from_bytes bs = some m3 ∧ m3.icmp_type = t ∧ m3.code = c ∧
      m3.identifier = i ∧ m3.sequence = s ∧ m3.data = d := by
  have e1 : i / 256 * 256 + i % 256 = i := by omega
  have e2 : s / 256 * 256 + s % 256 = s := by omega
  have hinit := init_eq t c i s d
  rw [if_pos ⟨hc, hi, hs⟩] at hinit
  have htb := toBytes_eq
    { icmp_type := t, code := c,
      checksum := checksumOf ([t.value, c, 0, 0, i / 256, i % 256, s / 256, s % 256] ++ d),
      identifier := i, sequence := s, data := d, response_time := -1 }
  rw [if_pos ⟨hc, hi, hs⟩] at htb
  dsimp only [zeroCkPayload] at htb
  have hfb : ∀ ck : Nat,
      ICMP_Echo.from_bytes ([t.value, c, ck / 256, ck % 256, i / 256, i % 256,
        s / 256, s % 256] ++ d) = ICMP_Echo.init t c i s d := by
    intro ck
    simp only [List.cons_append, List.nil_append, ICMP_Echo.from_bytes, fromValue_value]
    rw [e1, e2]
  have hm3 := hfb (checksumOf ([t.value, c, 0, 0, i / 256, i % 256, s / 256, s % 256] ++ d))
  rw [hinit] at hm3
  exact ⟨_, _, _, _, hinit, htb, hm3, rfl, rfl, rfl, rfl, rfl⟩

/-- C3 witness: the round trip at type ECHO, code 0, identifier 1, sequence 1
and payload [97, 98]. -/
theorem C3_witness :
    (0 : Nat) ≤ 255 ∧ (1 : Nat) ≤ 65535 ∧
    (∃ m bs m2 m3, ICMP_Echo.init .ECHO 0 1 1 [97, 98] = some m ∧ m.toBytes = some (bs, m2) ∧
      ICMP_Echo.from_bytes bs = some m3 ∧ m3.icmp_type = .ECHO ∧ m3.code = 0 ∧
      m3.identifier = 1 ∧ m3.sequence = 1 ∧ m3.data = [97, 98]) :=
  ⟨by norm_num, by norm_num,
    C3_round_trip .ECHO 0 1 1 [97, 98] (by norm_num) (by norm_num) (by norm_num)⟩

/-- C4: `from_bytes` fails (raising, modelled as `none`) if and only if the
buffer holds fewer than 8 bytes or its first byte is neither 8 nor 0; any
byte buffer of length at least 8 whose first byte is 8 or 0 decodes
structurally, with no checksum enforcement. -/
theorem C4_from_bytes_malformed_iff (packet : List Nat) (hb : ∀ b ∈ packet, b ≤ 255) :
    ICMP_Echo.from_bytes packet = none ↔
      packet.length < 8 ∨ (packet.head? ≠ some 8 ∧ packet.head? ≠ some 0) := by
  rcases packet with _ | ⟨b0, _ | ⟨b1, _ | ⟨b2, _ | ⟨b3, _ | ⟨b4, _ | ⟨b5, _ | ⟨b6, _ | ⟨b7, rest⟩⟩⟩⟩⟩⟩⟩⟩
  · simp [ICMP_Echo.from_bytes]
  · simp [ICMP_Echo.from_bytes]
  · simp [ICMP_Echo.from_bytes]
  · simp [ICMP_Echo.from_bytes]
  · simp [ICMP_Echo.from_bytes]
  · simp [ICMP_Echo.from_bytes]
  · simp [ICMP_Echo.from_bytes]
  · simp [ICMP_Echo.from_bytes]
  · have hred : ICMP_Echo.from_bytes (b0 :: b1 :: b2 :: b3 :: b4 :: b5 :: b6 :: b7 :: rest) =
        (match ICMP_Echo_Type.fromValue b0 with
         | none => none
         | some t => ICMP_Echo.init t b1 (b4 * 256 + b5) (b6 * 256 + b7) rest) := rfl
    rw [hred]
    have hlen : ¬((b0 :: b1 :: b2 :: b3 :: b4 :: b5 :: b6 :: b7 :: rest).length < 8) := by
      simp
    cases hf : ICMP_Echo_Type.fromValue b0 with
    | none =>
      have hb0 : ¬(b0 = 8) ∧ ¬(b0 = 0) := by
        by_cases h1 : b0 = 8
        · subst h1
          simp [ICMP_Echo_Type.fromValue] at hf
        · by_cases h2 : b0 = 0
          · subst h2
            simp [ICMP_Echo_Type.fromValue] at hf
          · exact ⟨h1, h2⟩
      simp [hb0.1, hb0.2, hlen]
    | some t =>
      have hb0 : b0 = 8 ∨ b0 = 0 := by
        by_cases h1 : b0 = 8
        · exact Or.inl h1
        · by_cases h2 : b0 = 0
          · exact Or.inr h2
          · simp [ICMP_Echo_Type.fromValue, h1, h2] at hf
      have hb1 : b1 ≤ 255 := hb b1 (by simp)
      have hb4 : b4 ≤ 255 := hb b4 (by simp)
      have hb5 : b5 ≤ 255 := hb b5 (by simp)
      have hb6 : b6 ≤ 255 := hb b6 (by simp)
      have hb7 : b7 ≤ 255 := hb b7 (by simp)
      have hinit := init_eq t b1 (b4 * 256 + b5) (b6 * 256 + b7) rest
      rw [if_pos ⟨hb1, by omega, by omega⟩] at hinit
      rcases hb0 with rfl | rfl <;> simp [hinit, hlen]

/-- C4 witness: an 8-byte buffer with unknown leading type byte 3 is
rejected. -/
theorem C4_witness :
    (∀ b ∈ [3, 0, 0, 0, 0, 0, 0, 0], b ≤ 255) ∧
    (ICMP_Echo.from_bytes [3, 0, 0, 0, 0, 0, 0, 0] = none ↔
      ([3, 0, 0, 0, 0, 0, 0, 0] : List Nat).length < 8 ∨
      (([3, 0, 0, 0, 0, 0, 0, 0] : List Nat).head? ≠ some 8 ∧
       ([3, 0, 0, 0, 0, 0, 0, 0] : List Nat).head? ≠ some 0)) :=
  ⟨by decide, C4_from_bytes_malformed_iff [3, 0, 0, 0, 0, 0, 0, 0] (by decide)⟩

/-- C8: top-level `ping` contract over the network oracle — resolution
failure, connect failure and a receive timeout all return the distinguishable
negative sentinel -1 rather than raising, and a completed round trip returns
the elapsed time measured between the send call and the receipt of the
reply. -/
theorem C8_ping_contract :
    (ping .gaierror = .ok (-1) ∧ ping .oserror = .ok (-1) ∧ ping .timeout = .ok (-1) ∧
      (-1 : Rat) < 0)
    ∧ ∀ buf elapsed resp, ICMP_Echo.from_bytes (buf.drop 20) = some resp →
        ping (.received buf elapsed) = .ok elapsed := by
  have hinit : ICMP_Echo.init .ECHO 0 1 1 defaultData = some pingMsg := by decide
  have htb : ICMP_Echo.toBytes pingMsg = some (pingBytes, pingMsg) := by decide
  refine ⟨⟨rfl, rfl, rfl, by norm_num⟩, ?_⟩
  intro buf elapsed resp h
  unfold ping
  rw [hinit]
  simp [ICMP_Echo.sendto, htb, h]

/-- C8 witness: a completed round trip with a 20-byte IP header prefix and a
valid reply decodes and reports the elapsed time 3. -/
theorem C8_witness :
    ICMP_Echo.from_bytes ((List.replicate 20 0 ++ [0, 0, 0, 0, 0, 1, 0, 1]).drop 20) =
      some replyMsg ∧
    ping (.received (List.replicate 20 0 ++ [0, 0, 0, 0, 0, 1, 0, 1]) 3) = .ok 3 :=
  ⟨by decide,
    C8_ping_contract.2 (List.replicate 20 0 ++ [0, 0, 0, 0, 0, 1, 0, 1]) 3 replyMsg (by decide)⟩

theorem wordSum_header (X : List Nat) :
    wordSum (([8, 0, 0, 0, 0, 0, 0, 0] : List Nat) ++ X) = 2048 + wordSum X := by
  simp only [List.cons_append, List.nil_append, List.append_eq, wordSum]
  omega

theorem cex_payload_sum : wordSum (padEven (zeroCkPayload cexMsg)) = 4295032831 := by
  have hz : zeroCkPayload cexMsg = [8, 0, 0, 0, 0, 0, 0, 0] ++ cexData := by
    simp [zeroCkPayload, cexMsg, ICMP_Echo_Type.value]
  have hlen : (([8, 0, 0, 0, 0, 0, 0, 0] : List Nat) ++ cexData).length = 131084 := by
    rw [List.length_append, show cexData = List.replicate 131074 255 ++ [248, 0] from rfl,
      List.length_append, List.length_replicate]
    decide
  have hpad : padEven (([8, 0, 0, 0, 0, 0, 0, 0] : List Nat) ++ cexData) =
      [8, 0, 0, 0, 0, 0, 0, 0] ++ cexData := by
    unfold padEven
    rw [hlen]
    norm_num
  have hrep : cexData = List.replicate (2 * 65537) 255 ++ [248, 0] := by
    rw [show (2 * 65537 : Nat) = 131074 from by norm_num]
    rfl
  rw [hz, hpad, wordSum_header, hrep, wordSum_replicate255,
    show wordSum [248, 0] = 63488 from by simp [wordSum]]

theorem checksumOf_formula (p : List Nat) : checksumOf p =
    65535 - ((wordSum (padEven p) / 65536 + wordSum (padEven p) % 65536 +
      (wordSum (padEven p) / 65536 + wordSum (padEven p) % 65536) / 65536) % 65536) := rfl

/-- C1 (counterexample): on a message with 131076 payload bytes the code
computes checksum 65535 while the fully folded RFC 1071 value is 65534 — the
second fixed folding pass `s += s >> 16` leaves a carry unabsorbed when the
first fold lands on 0x1FFFF, so the claim does not hold for every message. -/
theorem C1_counterexample :
    calculate_checksum cexMsg = some 65535 ∧ rfc1071_checksum cexMsg = some 65534 ∧
    calculate_checksum cexMsg ≠ rfc1071_checksum cexMsg := by
  have hcond : cexMsg.code ≤ 255 ∧ cexMsg.identifier ≤ 65535 ∧ cexMsg.sequence ≤ 65535 := by
    refine ⟨?_, ?_, ?_⟩ <;> norm_num [cexMsg]
  have hcalc : calculate_checksum cexMsg = some (checksumOf (zeroCkPayload cexMsg)) := by
    rw [calculate_checksum_eq, if_pos hcond]
  have hck : checksumOf (zeroCkPayload cexMsg) = 65535 := by
    rw [checksumOf_formula, cex_payload_sum]
  have hfold : foldCarry 4295032831 = 1 := by
    rw [foldCarry_step _ (by norm_num)]
    norm_num
    rw [foldCarry_step _ (by norm_num)]
    norm_num
    rw [foldCarry_step _ (by norm_num)]
    norm_num
    rw [foldCarry_small _ (by norm_num)]
  have hrfc : rfc1071_checksum cexMsg = some 65534 := by
    rw [rfc1071_checksum_eq, if_pos hcond, cex_payload_sum, hfold]
  refine ⟨hcalc.trans (by rw [hck]), hrfc, ?_⟩
  rw [hcalc, hck, hrfc]
  decide

/-- C1 (amended): `calculate_checksum` equals the RFC 1071 value — the ones
complement, truncated to 16 bits, of the fully end-around-carry-folded sum of
the 16-bit big-endian words of the zero-checksum serialization (one zero byte
logically appended when the byte count is odd) — for every message whose
payload holds at most 131064 bytes, so that the padded serialization has at
most 65536 words and the two fixed folding passes absorb every carry; the
result is in [0, 65535] and is independent of the stored checksum field. -/
theorem C1_checksum_rfc1071 (m : ICMP_Echo) (hb : ∀ b ∈ m.data, b ≤ 255)
    (hlen : m.data.length ≤ 131064) :
    calculate_checksum m = rfc1071_checksum m ∧
    (∀ ck, calculate_checksum { m with checksum := ck } = calculate_checksum m) ∧
    (∀ v, calculate_checksum m = some v → v ≤ 65535) := by
  refine ⟨?_, fun ck => rfl, ?_⟩
  · rw [calculate_checksum_eq, rfc1071_checksum_eq]
    by_cases h : m.code ≤ 255 ∧ m.identifier ≤ 65535 ∧ m.sequence ≤ 65535
    · rw [if_pos h, if_pos h]
      have hbytes := zeroCkPayload_bytes m h.1 h.2.1 h.2.2 hb
      have hl : (zeroCkPayload m).length ≤ 131072 := by
        rw [zeroCkPayload_length]
        omega
      rw [checksumOf_eq_foldCarry _ hbytes hl]
    · rw [if_neg h, if_neg h]
  · intro v hv
    rw [calculate_checksum_eq] at hv
    split at hv
    · cases hv
      exact checksumOf_le _
    · cases hv

/-- C1 witness: the amended equivalence at a small 3-byte-payload message. -/
theorem C1_witness :
    (∀ b ∈ msgSmall.data, b ≤ 255) ∧ msgSmall.data.length ≤ 131064 ∧
    (calculate_checksum msgSmall = rfc1071_checksum msgSmall ∧
      (∀ ck, calculate_checksum { msgSmall with checksum := ck } =
        calculate_checksum msgSmall) ∧
      (∀ v, calculate_checksum msgSmall = some v → v ≤ 65535)) :=
  ⟨by decide, by decide, C1_checksum_rfc1071 msgSmall (by decide) (by decide)⟩
